import Mathlib

/-!
# Verification of the web-snake game core (`src/game.ts`)

The repository contains two variants of the same snake game:

* a *bounded-queue* variant (first class in `src/game.ts`): directional input is
  buffered in `directionQueue` (capacity 4, duplicate and reversal filters) and
  drained one element per tick, with re-validation against the current direction;
* a *single-pending* variant (second class in `src/game.ts`): the latest
  non-reversing input overwrites `nextDirection`, which each tick copies into
  `direction` unconditionally; this variant additionally has a `gamePaused` flag.

This file gives a shallow embedding of the simulation core of both variants.
Conventions of the embedding:

* TypeScript numbers holding grid coordinates, directions and scores are
  modelled as `Int`; JavaScript `%` (truncated remainder, sign of the dividend)
  is modelled as `Int.tmod`.
* `Math.random()`-driven food placement is modelled by an oracle stream
  `rnd : Nat → Nat × Nat`; `Math.floor(Math.random() * k)`, which yields an
  arbitrary integer in `[0, k)`, is modelled as `rnd i` reduced `% k`.  The
  unbounded `do … while` resampling loop becomes fuel-based recursion returning
  `Option Position` (`none` models non-termination of the loop).
* the float literal `0.15` of `spawnFood` is modelled by the exact rational
  `15/100`, i.e. `marginX = gridWidth * 15 / 100` with integer division.
* DOM, canvas and `localStorage` effects are outside the state transition;
  `saveHighScore` is modelled by an explicitly returned `Option Int` (the value
  written to the store, if any), and the `setTimeout` reset callback of
  `gameOver` is modelled as its own transition function.
-/

/-- `interface Position { x: number; y: number; }` -/
structure Position where
  x : Int
  y : Int
deriving DecidableEq, Repr

/-- Grid dimensions (`gridWidth`, `gridHeight` fields of `SnakeGame`,
recomputed by `resizeCanvas`, constant during a tick). -/
structure Grid where
  gridWidth : Int
  gridHeight : Int
deriving DecidableEq, Repr

/-- The four arrow directions of the `directions` map in `setupControls`. -/
def dirUp : Position := { x := 0, y := -1 }

def dirDown : Position := { x := 0, y := 1 }

def dirLeft : Position := { x := -1, y := 0 }

def dirRight : Position := { x := 1, y := 0 }

/-- Two directions are opposite when their component-wise sum vanishes;
this is the test `lastDirection.x + newDirection.x === 0 &&
lastDirection.y + newDirection.y === 0` used by both input handlers. -/
def oppositeDir (a b : Position) : Prop :=
  a.x + b.x = 0 ∧ a.y + b.y = 0

instance (a b : Position) : Decidable (oppositeDir a b) := by
  unfold oppositeDir; infer_instance

/-- `createInitialSnake` (identical in both variants). -/
def createInitialSnake : List Position :=
  let startX : Int := 7
  let startY : Int := 8
  [ { x := startX, y := startY },
    { x := startX - 1, y := startY },
    { x := startX - 2, y := startY },
    { x := startX - 3, y := startY },
    { x := startX - 4, y := startY } ]

/-- The new head computed at the start of `update` (identical in both
variants): `(head.x + dir.x + gridWidth) % gridWidth` with JavaScript `%`,
i.e. `Int.tmod`, and likewise for `y`. -/
def newHeadPos (g : Grid) (head dir : Position) : Position :=
  { x := Int.tmod (head.x + dir.x + g.gridWidth) g.gridWidth,
    y := Int.tmod (head.y + dir.y + g.gridHeight) g.gridHeight }

/-- `checkCollision` (identical in both variants): whether `head` hits any
cell of `snake`. -/
def checkCollision (snake : List Position) (head : Position) : Bool :=
  snake.any (fun segment => segment.x == head.x && segment.y == head.y)

/-- The resampling loop body of `spawnFood` (identical in both variants),
with explicit fuel and a stream index into the random oracle. -/
def spawnFoodAux (g : Grid) (snake : List Position) (rnd : Nat → Nat × Nat) :
    Nat → Nat → Option Position
  | _, 0 => none
  | i, fuel + 1 =>
    let marginX : Int := g.gridWidth * 15 / 100
    let marginY : Int := g.gridHeight * 15 / 100
    let newFood : Position :=
      { x := marginX + ((rnd i).1 : Int) % (g.gridWidth - 2 * marginX),
        y := marginY + ((rnd i).2 : Int) % (g.gridHeight - 2 * marginY) }
    if snake.any (fun segment => segment.x == newFood.x && segment.y == newFood.y) then
      spawnFoodAux g snake rnd (i + 1) fuel
    else
      some newFood

/-- `spawnFood` (identical in both variants): sample inside the 15% inset
margin, resampling while the candidate lies on the snake. -/
def spawnFood (g : Grid) (snake : List Position) (rnd : Nat → Nat × Nat)
    (fuel : Nat) : Option Position :=
  spawnFoodAux g snake rnd 0 fuel

namespace Queue

/-- `GameState` of the bounded-queue variant. -/
structure GameState where
  snake : List Position
  food : Position
  direction : Position
  nextDirection : Position
  directionQueue : List Position
  score : Int
  highScore : Int
  gameRunning : Bool
deriving DecidableEq, Repr

/-- Which branch of the direction part of `handleKeyEvent` fires. -/
inductive InputFate where
  | queuedOk
  | droppedQueueFull
  | rejected
  | ignoredNotRunning
deriving DecidableEq, Repr

/-- The directional part of `handleKeyEvent` in `setupControls`
(queue variant): duplicate filter, non-reversal filter against the last
buffered direction (falling back to the current direction), capacity 4. -/
def handleDirectionInput (s : GameState) (newDirection : Position) : GameState :=
  if !s.gameRunning then s
  else
    let lastDirection :=
      match s.directionQueue.getLast? with
      | some d => d
      | none => s.direction
    let alreadyQueued :=
      s.directionQueue.any (fun d => d.x == newDirection.x && d.y == newDirection.y)
    if !alreadyQueued &&
        (lastDirection.x + newDirection.x != 0 ||
         lastDirection.y + newDirection.y != 0) then
      if s.directionQueue.length < 4 then
        { s with directionQueue := s.directionQueue ++ [newDirection] }
      else
        s
    else
      s

/-- The branch taken by `handleDirectionInput`, for reasoning about *why*
an input was dropped (mirrors the `console.log` diagnostics). -/
def inputFate (s : GameState) (newDirection : Position) : InputFate :=
  if !s.gameRunning then .ignoredNotRunning
  else
    let lastDirection :=
      match s.directionQueue.getLast? with
      | some d => d
      | none => s.direction
    let alreadyQueued :=
      s.directionQueue.any (fun d => d.x == newDirection.x && d.y == newDirection.y)
    if !alreadyQueued &&
        (lastDirection.x + newDirection.x != 0 ||
         lastDirection.y + newDirection.y != 0) then
      if s.directionQueue.length < 4 then .queuedOk else .droppedQueueFull
    else
      .rejected

/-- The comparison direction of the non-reversal filter: the last buffered
direction, or the current direction when the buffer is empty. -/
def comparisonDirection (s : GameState) : Position :=
  match s.directionQueue.getLast? with
  | some d => d
  | none => s.direction

/-- The queue-draining prefix of `update`: `shift` one buffered direction
and adopt it only if it is not opposite to the current direction. -/
def processQueue (s : GameState) : GameState :=
  match s.directionQueue with
  | [] => s
  | queuedDirection :: rest =>
    if s.direction.x + queuedDirection.x != 0 ||
        s.direction.y + queuedDirection.y != 0 then
      { s with direction := queuedDirection, directionQueue := rest }
    else
      { s with directionQueue := rest }

/-- The synchronous part of `gameOver`: stop the game and raise the high
score when beaten (the delayed reset is `gameOverReset` below). -/
def gameOverState (s : GameState) : GameState :=
  let s1 := { s with gameRunning := false }
  if s1.score > s1.highScore then { s1 with highScore := s1.score } else s1

/-- The store write performed by `gameOver` via `saveHighScore`: `some v`
means the value `v` is persisted. -/
def gameOverPersisted (s : GameState) : Option Int :=
  if s.score > s.highScore then some s.score else none

/-- The `setTimeout` callback of `gameOver`: reinitialize the game state
to its construction-time shape (high score kept) and respawn food. -/
def gameOverReset (g : Grid) (rnd : Nat → Nat × Nat) (fuel : Nat)
    (s : GameState) : Option GameState :=
  let s1 := { s with
    snake := createInitialSnake
    direction := { x := 1, y := 0 }
    nextDirection := { x := 1, y := 0 }
    directionQueue := ([] : List Position)
    score := 0 }
  match spawnFood g s1.snake rnd fuel with
  | some f => some { s1 with food := f }
  | none => none

/-- `startGame` (state part; the interval timer is external). -/
def startGame (s : GameState) : GameState :=
  { s with gameRunning := true }

/-- The new head a tick starting from `s` would compute (after the queue
prefix of `update`); `none` when the snake is empty. -/
def tickNewHead (g : Grid) (s : GameState) : Option Position :=
  let s1 := processQueue s
  match s1.snake with
  | [] => none
  | head :: _ => some (newHeadPos g head s1.direction)

/-- `update` of the queue variant: drain one queued direction, move the
head with toroidal wrap, detect collision against the pre-move body, grow
on food (score +10, respawn) else pop the tail. -/
def update (g : Grid) (rnd : Nat → Nat × Nat) (fuel : Nat) (s : GameState) :
    Option GameState :=
  let s1 := processQueue s
  match s1.snake with
  | [] => none
  | head :: _ =>
    let newHead := newHeadPos g head s1.direction
    if checkCollision s1.snake newHead then
      some (gameOverState s1)
    else
      let grown := newHead :: s1.snake
      if newHead.x == s1.food.x && newHead.y == s1.food.y then
        match spawnFood g grown rnd fuel with
        | some f => some { s1 with snake := grown, score := s1.score + 10, food := f }
        | none => none
      else
        some { s1 with snake := grown.dropLast }

/-- The constructor of `SnakeGame`: initial snake, score 0, loaded high
score, not running, then `spawnFood`. -/
def initState (g : Grid) (rnd : Nat → Nat × Nat) (fuel : Nat)
    (savedHighScore : Int) : Option GameState :=
  let s : GameState :=
    { snake := createInitialSnake
      food := { x := 0, y := 0 }
      direction := { x := 1, y := 0 }
      nextDirection := { x := 1, y := 0 }
      directionQueue := []
      score := 0
      highScore := savedHighScore
      gameRunning := false }
  match spawnFood g s.snake rnd fuel with
  | some f => some { s with food := f }
  | none => none

/-- States reachable by the queue variant: construction, key input, start,
ticks, and the delayed game-over reset. -/
inductive Reach (g : Grid) : GameState → Prop where
  | init : ∀ rnd fuel hs s, initState g rnd fuel hs = some s → Reach g s
  | input : ∀ s nd, Reach g s → Reach g (handleDirectionInput s nd)
  | start : ∀ s, Reach g s → Reach g (startGame s)
  | tick : ∀ s rnd fuel s', Reach g s → update g rnd fuel s = some s' → Reach g s'
  | reset : ∀ s rnd fuel s', Reach g s → gameOverReset g rnd fuel s = some s' →
      Reach g s'

end Queue

namespace Pending

/-- `GameState` of the single-pending variant (no queue, pause flag). -/
structure GameState where
  snake : List Position
  food : Position
  direction : Position
  nextDirection : Position
  score : Int
  highScore : Int
  gameRunning : Bool
  gamePaused : Bool
deriving DecidableEq, Repr

/-- The directional part of the `keydown` handler in `setupControls`
(single-pending variant): ignore input while not running or paused, then
overwrite `nextDirection` unless the candidate is opposite to the current
direction. -/
def handleDirectionInput (s : GameState) (newDirection : Position) : GameState :=
  if !s.gameRunning || s.gamePaused then s
  else
    if s.direction.x + newDirection.x != 0 ||
        s.direction.y + newDirection.y != 0 then
      { s with nextDirection := newDirection }
    else
      s

/-- `startGame` (state part): running, unpaused. -/
def startGame (s : GameState) : GameState :=
  { s with gameRunning := true, gamePaused := false }

/-- `toggleGame`: start when not running, otherwise flip the pause flag. -/
def toggleGame (s : GameState) : GameState :=
  if !s.gameRunning then startGame s
  else { s with gamePaused := !s.gamePaused }

/-- Synchronous part of `gameOver` (single-pending variant). -/
def gameOverState (s : GameState) : GameState :=
  let s1 := { s with gameRunning := false }
  if s1.score > s1.highScore then { s1 with highScore := s1.score } else s1

/-- The store write performed by `gameOver` via `saveHighScore`. -/
def gameOverPersisted (s : GameState) : Option Int :=
  if s.score > s.highScore then some s.score else none

/-- The `setTimeout` callback of `gameOver` (single-pending variant). -/
def gameOverReset (g : Grid) (rnd : Nat → Nat × Nat) (fuel : Nat)
    (s : GameState) : Option GameState :=
  let s1 := { s with
    snake := createInitialSnake
    direction := { x := 1, y := 0 }
    nextDirection := { x := 1, y := 0 }
    score := 0 }
  match spawnFood g s1.snake rnd fuel with
  | some f => some { s1 with food := f }
  | none => none

/-- The new head a tick starting from `s` would compute (after
`direction := nextDirection`); `none` when the snake is empty. -/
def tickNewHead (g : Grid) (s : GameState) : Option Position :=
  let s1 := { s with direction := s.nextDirection }
  match s1.snake with
  | [] => none
  | head :: _ => some (newHeadPos g head s1.direction)

/-- `update` of the single-pending variant: adopt `nextDirection`
unconditionally, then move, detect collision, grow or pop. -/
def update (g : Grid) (rnd : Nat → Nat × Nat) (fuel : Nat) (s : GameState) :
    Option GameState :=
  let s1 := { s with direction := s.nextDirection }
  match s1.snake with
  | [] => none
  | head :: _ =>
    let newHead := newHeadPos g head s1.direction
    if checkCollision s1.snake newHead then
      some (gameOverState s1)
    else
      let grown := newHead :: s1.snake
      if newHead.x == s1.food.x && newHead.y == s1.food.y then
        match spawnFood g grown rnd fuel with
        | some f => some { s1 with snake := grown, score := s1.score + 10, food := f }
        | none => none
      else
        some { s1 with snake := grown.dropLast }

/-- The interval callback of `startGame`: when paused it neither updates
nor draws; the `Bool` records whether `draw` was invoked. -/
def timerFired (g : Grid) (rnd : Nat → Nat × Nat) (fuel : Nat)
    (s : GameState) : Option (GameState × Bool) :=
  if !s.gamePaused then
    (update g rnd fuel s).map (fun s' => (s', true))
  else
    some (s, false)

/-- The constructor of `SnakeGame` (single-pending variant). -/
def initState (g : Grid) (rnd : Nat → Nat × Nat) (fuel : Nat)
    (savedHighScore : Int) : Option GameState :=
  let s : GameState :=
    { snake := createInitialSnake
      food := { x := 0, y := 0 }
      direction := { x := 1, y := 0 }
      nextDirection := { x := 1, y := 0 }
      score := 0
      highScore := savedHighScore
      gameRunning := false
      gamePaused := false }
  match spawnFood g s.snake rnd fuel with
  | some f => some { s with food := f }
  | none => none

/-- States reachable by the single-pending variant. -/
inductive Reach (g : Grid) : GameState → Prop where
  | init : ∀ rnd fuel hs s, initState g rnd fuel hs = some s → Reach g s
  | input : ∀ s nd, Reach g s → Reach g (handleDirectionInput s nd)
  | toggle : ∀ s, Reach g s → Reach g (toggleGame s)
  | tick : ∀ s rnd fuel s', Reach g s → update g rnd fuel s = some s' → Reach g s'
  | reset : ∀ s rnd fuel s', Reach g s → gameOverReset g rnd fuel s = some s' →
      Reach g s'

end Pending

/-! ## Shared lemmas -/

theorem spawnFoodAux_sound (g : Grid) (snake : List Position)
    (rnd : Nat → Nat × Nat) (hw : 0 < g.gridWidth) (hh : 0 < g.gridHeight) :
    ∀ fuel i f, spawnFoodAux g snake rnd i fuel = some f →
      checkCollision snake f = false ∧
      g.gridWidth * 15 / 100 ≤ f.x ∧
      f.x < g.gridWidth - g.gridWidth * 15 / 100 ∧
      g.gridHeight * 15 / 100 ≤ f.y ∧
      f.y < g.gridHeight - g.gridHeight * 15 / 100 := by
  intro fuel
  induction fuel with
  | zero => intro i f h; simp [spawnFoodAux] at h
  | succ n ih =>
    intro i f h
    rw [spawnFoodAux] at h
    split at h
    · exact ih (i + 1) f h
    · rename_i hmiss
      rw [Bool.not_eq_true] at hmiss
      cases h
      refine ⟨hmiss, ?_, ?_, ?_, ?_⟩
      · have := Int.emod_nonneg ((rnd i).1 : Int)
          (b := g.gridWidth - 2 * (g.gridWidth * 15 / 100)) (by omega)
        simpa using by omega
      · have h1 := Int.emod_lt_of_pos ((rnd i).1 : Int)
          (b := g.gridWidth - 2 * (g.gridWidth * 15 / 100)) (by omega)
        simpa using by omega
      · have := Int.emod_nonneg ((rnd i).2 : Int)
          (b := g.gridHeight - 2 * (g.gridHeight * 15 / 100)) (by omega)
        simpa using by omega
      · have h1 := Int.emod_lt_of_pos ((rnd i).2 : Int)
          (b := g.gridHeight - 2 * (g.gridHeight * 15 / 100)) (by omega)
        simpa using by omega

theorem spawnFood_sound (g : Grid) (snake : List Position)
    (rnd : Nat → Nat × Nat) (fuel : Nat) (f : Position)
    (hw : 0 < g.gridWidth) (hh : 0 < g.gridHeight)
    (h : spawnFood g snake rnd fuel = some f) :
    checkCollision snake f = false ∧
    g.gridWidth * 15 / 100 ≤ f.x ∧
    f.x < g.gridWidth - g.gridWidth * 15 / 100 ∧
    g.gridHeight * 15 / 100 ≤ f.y ∧
    f.y < g.gridHeight - g.gridHeight * 15 / 100 :=
  spawnFoodAux_sound g snake rnd hw hh fuel 0 f h

/-- The resampling loop never returns a cell on the snake, regardless of
grid dimensions. -/
theorem spawnFood_not_on_snake (g : Grid) (snake : List Position)
    (rnd : Nat → Nat × Nat) :
    ∀ fuel i f, spawnFoodAux g snake rnd i fuel = some f →
      checkCollision snake f = false := by
  intro fuel
  induction fuel with
  | zero => intro i f h; simp [spawnFoodAux] at h
  | succ n ih =>
    intro i f h
    rw [spawnFoodAux] at h
    split at h
    · exact ih (i + 1) f h
    · rename_i hmiss
      rw [Bool.not_eq_true] at hmiss
      cases h
      exact hmiss

/-- A fixed oracle stream used by concrete witnesses. -/
def rndZero : Nat → Nat × Nat := fun _ => (0, 0)

/-- A 25 × 14 grid used by concrete witnesses (the reference layout divides
the viewport by 25 and 14). -/
def grid25x14 : Grid := { gridWidth := 25, gridHeight := 14 }

/-- The queue-draining prefix of `update` touches only `direction` and
`directionQueue`. -/
theorem Queue.processQueue_preserves (s : Queue.GameState) :
    (Queue.processQueue s).snake = s.snake ∧
    (Queue.processQueue s).food = s.food ∧
    (Queue.processQueue s).score = s.score ∧
    (Queue.processQueue s).highScore = s.highScore ∧
    (Queue.processQueue s).gameRunning = s.gameRunning ∧
    (Queue.processQueue s).nextDirection = s.nextDirection := by
  unfold Queue.processQueue
  split
  · exact ⟨rfl, rfl, rfl, rfl, rfl, rfl⟩
  · split <;> exact ⟨rfl, rfl, rfl, rfl, rfl, rfl⟩

/-- The component-wise `==` test used for the food check agrees with
equality of positions. -/
theorem beq_components_iff (a b : Position) :
    (a.x == b.x && a.y == b.y) = true ↔ a = b := by
  cases a; cases b
  simp [Position.mk.injEq]

/-- Case analysis of a successful tick of the queue variant. -/
theorem Queue.update_cases_queue (g : Grid) (rnd : Nat → Nat × Nat) (fuel : Nat)
    (s s' : Queue.GameState) (h : Queue.update g rnd fuel s = some s') :
    ∃ head tail nh,
      s.snake = head :: tail ∧
      nh = newHeadPos g head (Queue.processQueue s).direction ∧
      ((checkCollision s.snake nh = true ∧
          s' = Queue.gameOverState (Queue.processQueue s)) ∨
       (checkCollision s.snake nh = false ∧ nh = s.food ∧
          ∃ f, spawnFood g (nh :: s.snake) rnd fuel = some f ∧
            s' = { snake := nh :: s.snake, food := f,
                   direction := (Queue.processQueue s).direction,
                   nextDirection := s.nextDirection,
                   directionQueue := (Queue.processQueue s).directionQueue,
                   score := s.score + 10, highScore := s.highScore,
                   gameRunning := s.gameRunning }) ∨
       (checkCollision s.snake nh = false ∧ nh ≠ s.food ∧
          s' = { snake := (nh :: s.snake).dropLast, food := s.food,
                 direction := (Queue.processQueue s).direction,
                 nextDirection := s.nextDirection,
                 directionQueue := (Queue.processQueue s).directionQueue,
                 score := s.score, highScore := s.highScore,
                 gameRunning := s.gameRunning })) := by
  obtain ⟨hsn, hfd, hsc, hhs, hgr, hnd⟩ := Queue.processQueue_preserves s
  simp only [Queue.update] at h
  rcases hs : (Queue.processQueue s).snake with _ | ⟨head, tail⟩
  · rw [hs] at h; exact absurd h (by simp)
  have hss : s.snake = head :: tail := by rw [← hsn, hs]
  rw [hs] at h
  simp only at h
  rw [← hss, hfd, hsc, hhs, hgr, hnd] at h
  refine ⟨head, tail, newHeadPos g head (Queue.processQueue s).direction,
    hss, rfl, ?_⟩
  by_cases hc :
      checkCollision s.snake (newHeadPos g head (Queue.processQueue s).direction) = true
  · rw [if_pos hc] at h
    left
    exact ⟨hc, by injection h with h1; exact h1.symm⟩
  · rw [if_neg hc] at h
    rw [Bool.not_eq_true] at hc
    by_cases hf : newHeadPos g head (Queue.processQueue s).direction = s.food
    · rw [if_pos ((beq_components_iff _ _).mpr hf)] at h
      rcases hsp : spawnFood g
          (newHeadPos g head (Queue.processQueue s).direction :: s.snake) rnd fuel with
        _ | f
      · rw [hsp] at h; exact absurd h (by simp)
      · rw [hsp] at h
        right; left
        exact ⟨hc, hf, f, rfl, by injection h with h1; exact h1.symm⟩
    · rw [if_neg (fun hcon => hf ((beq_components_iff _ _).mp hcon))] at h
      right; right
      exact ⟨hc, hf, by injection h with h1; exact h1.symm⟩

/-- Case analysis of a successful tick of the single-pending variant. -/
theorem Pending.update_cases_pending (g : Grid) (rnd : Nat → Nat × Nat) (fuel : Nat)
    (s s' : Pending.GameState) (h : Pending.update g rnd fuel s = some s') :
    ∃ head tail nh,
      s.snake = head :: tail ∧
      nh = newHeadPos g head s.nextDirection ∧
      ((checkCollision s.snake nh = true ∧
          s' = Pending.gameOverState { s with direction := s.nextDirection }) ∨
       (checkCollision s.snake nh = false ∧ nh = s.food ∧
          ∃ f, spawnFood g (nh :: s.snake) rnd fuel = some f ∧
            s' = { s with
                     snake := nh :: s.snake
                     food := f
                     direction := s.nextDirection
                     score := s.score + 10 }) ∨
       (checkCollision s.snake nh = false ∧ nh ≠ s.food ∧
          s' = { s with
                   snake := (nh :: s.snake).dropLast
                   direction := s.nextDirection })) := by
  simp only [Pending.update] at h
  rcases hs : s.snake with _ | ⟨head, tail⟩
  · rw [hs] at h; exact absurd h (by simp)
  rw [hs] at h
  simp only at h
  refine ⟨head, tail, newHeadPos g head s.nextDirection, rfl, rfl, ?_⟩
  by_cases hc :
    checkCollision (head :: tail) (newHeadPos g head s.nextDirection) = true
  · rw [if_pos hc] at h
    left
    exact ⟨hc, by injection h with h1; exact h1.symm⟩
  · rw [if_neg hc] at h
    rw [Bool.not_eq_true] at hc
    by_cases hf : newHeadPos g head s.nextDirection = s.food
    · rw [if_pos ((beq_components_iff _ _).mpr hf)] at h
      rcases hsp : spawnFood g
          (newHeadPos g head s.nextDirection :: head :: tail) rnd fuel with _ | f
      · rw [hsp] at h; exact absurd h (by simp)
      · rw [hsp] at h
        right; left
        exact ⟨hc, hf, f, rfl, by injection h with h1; exact h1.symm⟩
    · rw [if_neg (fun hcon => hf ((beq_components_iff _ _).mp hcon))] at h
      right; right
      exact ⟨hc, hf, by injection h with h1; exact h1.symm⟩

/-- Field effects of the synchronous part of `gameOver` (queue variant). -/
theorem Queue.gameOverState_spec_queue (s : Queue.GameState) :
    (Queue.gameOverState s).gameRunning = false ∧
    (Queue.gameOverState s).score = s.score ∧
    (Queue.gameOverState s).snake = s.snake ∧
    (Queue.gameOverState s).food = s.food ∧
    (Queue.gameOverState s).direction = s.direction ∧
    (Queue.gameOverState s).directionQueue = s.directionQueue ∧
    (Queue.gameOverState s).highScore =
      (if s.score > s.highScore then s.score else s.highScore) := by
  simp only [Queue.gameOverState]
  split <;> simp_all

/-- Field effects of the synchronous part of `gameOver`
(single-pending variant). -/
theorem Pending.gameOverState_spec_pending (s : Pending.GameState) :
    (Pending.gameOverState s).gameRunning = false ∧
    (Pending.gameOverState s).score = s.score ∧
    (Pending.gameOverState s).snake = s.snake ∧
    (Pending.gameOverState s).food = s.food ∧
    (Pending.gameOverState s).direction = s.direction ∧
    (Pending.gameOverState s).nextDirection = s.nextDirection ∧
    (Pending.gameOverState s).gamePaused = s.gamePaused ∧
    (Pending.gameOverState s).highScore =
      (if s.score > s.highScore then s.score else s.highScore) := by
  simp only [Pending.gameOverState]
  split <;> simp_all

/-- `checkCollision` decides membership of the head in the body. -/
theorem checkCollision_eq_true_iff (snake : List Position) (p : Position) :
    checkCollision snake p = true ↔ p ∈ snake := by
  simp only [checkCollision, List.any_eq_true, Bool.and_eq_true, beq_iff_eq]
  constructor
  · rintro ⟨q, hq, h1, h2⟩
    have hqp : q = p := by cases q; cases p; simp_all
    rwa [← hqp]
  · intro hp
    exact ⟨p, hp, rfl, rfl⟩

theorem checkCollision_eq_false_iff (snake : List Position) (p : Position) :
    checkCollision snake p = false ↔ p ∉ snake := by
  rw [Bool.eq_false_iff]
  exact not_congr (checkCollision_eq_true_iff snake p)

/-- The key handler mutates only the direction queue (queue variant). -/
theorem Queue.handleDirectionInput_preserves_queue (s : Queue.GameState)
    (nd : Position) :
    (Queue.handleDirectionInput s nd).snake = s.snake ∧
    (Queue.handleDirectionInput s nd).food = s.food ∧
    (Queue.handleDirectionInput s nd).score = s.score ∧
    (Queue.handleDirectionInput s nd).highScore = s.highScore ∧
    (Queue.handleDirectionInput s nd).direction = s.direction ∧
    (Queue.handleDirectionInput s nd).gameRunning = s.gameRunning := by
  simp only [Queue.handleDirectionInput]
  split
  · exact ⟨rfl, rfl, rfl, rfl, rfl, rfl⟩
  · split
    · split
      · exact ⟨rfl, rfl, rfl, rfl, rfl, rfl⟩
      · exact ⟨rfl, rfl, rfl, rfl, rfl, rfl⟩
    · exact ⟨rfl, rfl, rfl, rfl, rfl, rfl⟩

/-- The key handler mutates only `nextDirection` (single-pending variant). -/
theorem Pending.handleDirectionInput_preserves_pending (s : Pending.GameState)
    (nd : Position) :
    (Pending.handleDirectionInput s nd).snake = s.snake ∧
    (Pending.handleDirectionInput s nd).food = s.food ∧
    (Pending.handleDirectionInput s nd).score = s.score ∧
    (Pending.handleDirectionInput s nd).highScore = s.highScore ∧
    (Pending.handleDirectionInput s nd).direction = s.direction ∧
    (Pending.handleDirectionInput s nd).gameRunning = s.gameRunning ∧
    (Pending.handleDirectionInput s nd).gamePaused = s.gamePaused := by
  simp only [Pending.handleDirectionInput]
  split
  · exact ⟨rfl, rfl, rfl, rfl, rfl, rfl, rfl⟩
  · split
    · exact ⟨rfl, rfl, rfl, rfl, rfl, rfl, rfl⟩
    · exact ⟨rfl, rfl, rfl, rfl, rfl, rfl, rfl⟩

/-- `toggleGame` mutates only the run/pause flags. -/
theorem Pending.toggleGame_preserves (s : Pending.GameState) :
    (Pending.toggleGame s).snake = s.snake ∧
    (Pending.toggleGame s).food = s.food ∧
    (Pending.toggleGame s).score = s.score ∧
    (Pending.toggleGame s).highScore = s.highScore ∧
    (Pending.toggleGame s).direction = s.direction ∧
    (Pending.toggleGame s).nextDirection = s.nextDirection := by
  simp only [Pending.toggleGame, Pending.startGame]
  split
  · exact ⟨rfl, rfl, rfl, rfl, rfl, rfl⟩
  · exact ⟨rfl, rfl, rfl, rfl, rfl, rfl⟩

/-- The score/food invariant maintained by every reachable state: the
score is a non-negative multiple of 10, and the food never lies on the
snake. -/
def Queue.Inv (s : Queue.GameState) : Prop :=
  0 ≤ s.score ∧ s.score % 10 = 0 ∧ checkCollision s.snake s.food = false

def Pending.Inv (s : Pending.GameState) : Prop :=
  0 ≤ s.score ∧ s.score % 10 = 0 ∧ checkCollision s.snake s.food = false

theorem Queue.reach_inv_queue (g : Grid) (s : Queue.GameState)
    (h : Queue.Reach g s) : Queue.Inv s := by
  induction h with
  | init rnd fuel hs0 s hinit =>
    simp only [Queue.initState] at hinit
    rcases hsp : spawnFood g createInitialSnake rnd fuel with _ | f
    · rw [hsp] at hinit; exact absurd hinit (by simp)
    · rw [hsp] at hinit
      injection hinit with h1
      refine ⟨by rw [← h1], by rw [← h1]; rfl, ?_⟩
      rw [← h1]
      exact spawnFood_not_on_snake g createInitialSnake rnd fuel 0 f hsp
  | input s nd hr ih =>
    obtain ⟨h1, h2, h3, -, -, -⟩ := Queue.handleDirectionInput_preserves_queue s nd
    exact ⟨by rw [h3]; exact ih.1, by rw [h3]; exact ih.2.1,
      by rw [h1, h2]; exact ih.2.2⟩
  | start s hr ih =>
    simp only [Queue.startGame]
    exact ih
  | tick s rnd fuel s' hr hupd ih =>
    obtain ⟨ihsc, ihmod, ihfood⟩ := ih
    obtain ⟨head, tail, nh, hss, hnh, hcase⟩ :=
      Queue.update_cases_queue g rnd fuel s s' hupd
    rcases hcase with ⟨hc, hgo⟩ | ⟨hc, hf, f, hsp, hgo⟩ | ⟨hc, hf, hgo⟩
    · obtain ⟨-, hsc, hsn, hfd, -, -, -⟩ :=
        Queue.gameOverState_spec_queue (Queue.processQueue s)
      obtain ⟨psn, pfd, psc, -, -, -⟩ := Queue.processQueue_preserves s
      rw [hgo]
      exact ⟨by rw [hsc, psc]; exact ihsc, by rw [hsc, psc]; exact ihmod,
        by rw [hsn, hfd, psn, pfd]; exact ihfood⟩
    · rw [hgo]
      refine ⟨show (0 : Int) ≤ s.score + 10 by omega,
        show (s.score + 10) % 10 = 0 by omega, ?_⟩
      show checkCollision (nh :: s.snake) f = false
      exact spawnFood_not_on_snake g (nh :: s.snake) rnd fuel 0 f hsp
    · rw [hgo]
      refine ⟨ihsc, ihmod, ?_⟩
      show checkCollision ((nh :: s.snake).dropLast) s.food = false
      rw [checkCollision_eq_false_iff]
      intro hmem
      have hmem2 : s.food ∈ nh :: s.snake :=
        List.dropLast_subset (nh :: s.snake) hmem
      rcases List.mem_cons.mp hmem2 with he | hm
      · exact hf he.symm
      · exact (checkCollision_eq_false_iff _ _).mp ihfood hm
  | reset s rnd fuel s' hr hreset ih =>
    simp only [Queue.gameOverReset] at hreset
    rcases hsp : spawnFood g createInitialSnake rnd fuel with _ | f
    · rw [hsp] at hreset; exact absurd hreset (by simp)
    · rw [hsp] at hreset
      injection hreset with h1
      refine ⟨by rw [← h1], by rw [← h1]; rfl, ?_⟩
      rw [← h1]
      exact spawnFood_not_on_snake g createInitialSnake rnd fuel 0 f hsp

theorem Pending.reach_inv_pending (g : Grid) (s : Pending.GameState)
    (h : Pending.Reach g s) : Pending.Inv s := by
  induction h with
  | init rnd fuel hs0 s hinit =>
    simp only [Pending.initState] at hinit
    rcases hsp : spawnFood g createInitialSnake rnd fuel with _ | f
    · rw [hsp] at hinit; exact absurd hinit (by simp)
    · rw [hsp] at hinit
      injection hinit with h1
      refine ⟨by rw [← h1], by rw [← h1]; rfl, ?_⟩
      rw [← h1]
      exact spawnFood_not_on_snake g createInitialSnake rnd fuel 0 f hsp
  | input s nd hr ih =>
    obtain ⟨h1, h2, h3, -, -, -, -⟩ := Pending.handleDirectionInput_preserves_pending s nd
    exact ⟨by rw [h3]; exact ih.1, by rw [h3]; exact ih.2.1,
      by rw [h1, h2]; exact ih.2.2⟩
  | toggle s hr ih =>
    obtain ⟨h1, h2, h3, -, -, -⟩ := Pending.toggleGame_preserves s
    exact ⟨by rw [h3]; exact ih.1, by rw [h3]; exact ih.2.1,
      by rw [h1, h2]; exact ih.2.2⟩
  | tick s rnd fuel s' hr hupd ih =>
    obtain ⟨ihsc, ihmod, ihfood⟩ := ih
    obtain ⟨head, tail, nh, hss, hnh, hcase⟩ :=
      Pending.update_cases_pending g rnd fuel s s' hupd
    rcases hcase with ⟨hc, hgo⟩ | ⟨hc, hf, f, hsp, hgo⟩ | ⟨hc, hf, hgo⟩
    · obtain ⟨-, hsc, hsn, hfd, -, -, -, -⟩ :=
        Pending.gameOverState_spec_pending { s with direction := s.nextDirection }
      rw [hgo]
      exact ⟨by rw [hsc]; exact ihsc, by rw [hsc]; exact ihmod,
        by rw [hsn, hfd]; exact ihfood⟩
    · rw [hgo]
      refine ⟨show (0 : Int) ≤ s.score + 10 by omega,
        show (s.score + 10) % 10 = 0 by omega, ?_⟩
      show checkCollision (nh :: s.snake) f = false
      exact spawnFood_not_on_snake g (nh :: s.snake) rnd fuel 0 f hsp
    · rw [hgo]
      refine ⟨ihsc, ihmod, ?_⟩
      show checkCollision ((nh :: s.snake).dropLast) s.food = false
      rw [checkCollision_eq_false_iff]
      intro hmem
      have hmem2 : s.food ∈ nh :: s.snake :=
        List.dropLast_subset (nh :: s.snake) hmem
      rcases List.mem_cons.mp hmem2 with he | hm
      · exact hf he.symm
      · exact (checkCollision_eq_false_iff _ _).mp ihfood hm
  | reset s rnd fuel s' hr hreset ih =>
    simp only [Pending.gameOverReset] at hreset
    rcases hsp : spawnFood g createInitialSnake rnd fuel with _ | f
    · rw [hsp] at hreset; exact absurd hreset (by simp)
    · rw [hsp] at hreset
      injection hreset with h1
      refine ⟨by rw [← h1], by rw [← h1]; rfl, ?_⟩
      rw [← h1]
      exact spawnFood_not_on_snake g createInitialSnake rnd fuel 0 f hsp

/-- A direction is opposite to itself only when it is the zero vector
(never the case for the four arrow directions). -/
theorem oppositeDir_self_iff (d : Position) :
    oppositeDir d d ↔ d = { x := 0, y := 0 } := by
  cases d
  simp only [oppositeDir, Position.mk.injEq]
  omega

/-- Dichotomy for the single-pending handler: either the pending slot is
untouched, or it receives exactly the submitted direction, which then is
not opposite to the current direction. -/
theorem Pending.handleDirectionInput_nextDirection (s : Pending.GameState)
    (nd : Position) :
    (Pending.handleDirectionInput s nd).nextDirection = s.nextDirection ∨
    ((Pending.handleDirectionInput s nd).nextDirection = nd ∧
     ¬ oppositeDir s.direction nd) := by
  simp only [Pending.handleDirectionInput]
  split
  · exact Or.inl rfl
  · split
    · rename_i hcond
      refine Or.inr ⟨rfl, ?_⟩
      rintro ⟨h1, h2⟩
      simp [h1, h2] at hcond
    · exact Or.inl rfl

/-- Folding any number of key events over a state leaves the current
direction unchanged and leaves the pending slot either untouched or
holding a direction not opposite to the current one. -/
theorem Pending.foldl_inputs_spec (ds : List Position) :
    ∀ s : Pending.GameState,
      (List.foldl Pending.handleDirectionInput s ds).direction =
        s.direction ∧
      ((List.foldl Pending.handleDirectionInput s ds).nextDirection =
          s.nextDirection ∨
       ¬ oppositeDir s.direction
         (List.foldl Pending.handleDirectionInput s ds).nextDirection) := by
  induction ds with
  | nil => intro s; exact ⟨rfl, Or.inl rfl⟩
  | cons d ds ih =>
    intro s
    simp only [List.foldl_cons]
    obtain ⟨ihdir, ihnext⟩ := ih (Pending.handleDirectionInput s d)
    obtain ⟨-, -, -, -, hdir, -, -⟩ :=
      Pending.handleDirectionInput_preserves_pending s d
    refine ⟨by rw [ihdir, hdir], ?_⟩
    rcases ihnext with he | hne
    · rcases Pending.handleDirectionInput_nextDirection s d with h0 | ⟨hval, hnopp⟩
      · exact Or.inl (by rw [he, h0])
      · right
        rw [he, hval]
        exact hnopp
    · right
      rw [hdir] at hne
      exact hne

/-! ## Claims -/

/-- C1: in either variant a tick transitions to GameOver (running flag
cleared) iff the newly computed head hits some cell of the pre-move snake
body — the body with the tail not yet popped, so the tail cell counts. -/
theorem C1_tick_gameover_iff_hit_premove_body :
    (∀ (g : Grid) (rnd : Nat → Nat × Nat) (fuel : Nat)
       (s s' : Queue.GameState) (nh : Position),
       s.gameRunning = true →
       Queue.update g rnd fuel s = some s' →
       Queue.tickNewHead g s = some nh →
       (s'.gameRunning = false ↔ checkCollision s.snake nh = true)) ∧
    (∀ (g : Grid) (rnd : Nat → Nat × Nat) (fuel : Nat)
       (s s' : Pending.GameState) (nh : Position),
       s.gameRunning = true →
       Pending.update g rnd fuel s = some s' →
       Pending.tickNewHead g s = some nh →
       (s'.gameRunning = false ↔ checkCollision s.snake nh = true)) := by
  constructor
  · intro g rnd fuel s s' nh hrun hupd hnh
    obtain ⟨head, tail, nh0, hss, hnh0, hcase⟩ :=
      Queue.update_cases_queue g rnd fuel s s' hupd
    obtain ⟨hsn, -, -, -, -, -⟩ := Queue.processQueue_preserves s
    have hnh1 : nh = nh0 := by
      simp only [Queue.tickNewHead] at hnh
      rw [hsn, hss] at hnh
      simp only at hnh
      injection hnh with h1
      rw [← h1, hnh0]
    subst hnh1
    rcases hcase with ⟨hc, hgo⟩ | ⟨hc, -, f, -, hgo⟩ | ⟨hc, -, hgo⟩
    · rw [hgo]
      simp [(Queue.gameOverState_spec_queue (Queue.processQueue s)).1, hc]
    · rw [hgo]
      simp [hrun, hc]
    · rw [hgo]
      simp [hrun, hc]
  · intro g rnd fuel s s' nh hrun hupd hnh
    obtain ⟨head, tail, nh0, hss, hnh0, hcase⟩ :=
      Pending.update_cases_pending g rnd fuel s s' hupd
    have hnh1 : nh = nh0 := by
      simp only [Pending.tickNewHead] at hnh
      rw [hss] at hnh
      simp only at hnh
      injection hnh with h1
      rw [← h1, hnh0]
    subst hnh1
    rcases hcase with ⟨hc, hgo⟩ | ⟨hc, -, f, -, hgo⟩ | ⟨hc, -, hgo⟩
    · rw [hgo]
      simp [(Pending.gameOverState_spec_pending _).1, hc]
    · rw [hgo]
      simp [hrun, hc]
    · rw [hgo]
      simp [hrun, hc]

/-- C2: on every non-terminal tick (the game is still running afterwards)
of either variant, the snake length is preserved, except that it grows by
one when the new head lands on the food. -/
theorem C2_tick_length_preserved_or_grows :
    (∀ (g : Grid) (rnd : Nat → Nat × Nat) (fuel : Nat)
       (s s' : Queue.GameState) (nh : Position),
       s.gameRunning = true → s'.gameRunning = true →
       Queue.update g rnd fuel s = some s' →
       Queue.tickNewHead g s = some nh →
       s'.snake.length =
         (if nh = s.food then s.snake.length + 1 else s.snake.length)) ∧
    (∀ (g : Grid) (rnd : Nat → Nat × Nat) (fuel : Nat)
       (s s' : Pending.GameState) (nh : Position),
       s.gameRunning = true → s'.gameRunning = true →
       Pending.update g rnd fuel s = some s' →
       Pending.tickNewHead g s = some nh →
       s'.snake.length =
         (if nh = s.food then s.snake.length + 1 else s.snake.length)) := by
  constructor
  · intro g rnd fuel s s' nh hrun hrun' hupd hnh
    obtain ⟨head, tail, nh0, hss, hnh0, hcase⟩ :=
      Queue.update_cases_queue g rnd fuel s s' hupd
    obtain ⟨hsn, -, -, -, -, -⟩ := Queue.processQueue_preserves s
    have hnh1 : nh = nh0 := by
      simp only [Queue.tickNewHead] at hnh
      rw [hsn, hss] at hnh
      simp only at hnh
      injection hnh with h1
      rw [← h1, hnh0]
    subst hnh1
    rcases hcase with ⟨hc, hgo⟩ | ⟨hc, hf, f, -, hgo⟩ | ⟨hc, hf, hgo⟩
    · exact absurd (hgo ▸ hrun' :
        (Queue.gameOverState (Queue.processQueue s)).gameRunning = true)
        (by rw [(Queue.gameOverState_spec_queue _).1]; simp)
    · rw [hgo, if_pos hf]
      simp
    · rw [hgo, if_neg hf]
      simp [hss, List.length_dropLast]
  · intro g rnd fuel s s' nh hrun hrun' hupd hnh
    obtain ⟨head, tail, nh0, hss, hnh0, hcase⟩ :=
      Pending.update_cases_pending g rnd fuel s s' hupd
    have hnh1 : nh = nh0 := by
      simp only [Pending.tickNewHead] at hnh
      rw [hss] at hnh
      simp only at hnh
      injection hnh with h1
      rw [← h1, hnh0]
    subst hnh1
    rcases hcase with ⟨hc, hgo⟩ | ⟨hc, hf, f, -, hgo⟩ | ⟨hc, hf, hgo⟩
    · exact absurd (hgo ▸ hrun' :
        (Pending.gameOverState _).gameRunning = true)
        (by rw [(Pending.gameOverState_spec_pending _).1]; simp)
    · rw [hgo, if_pos hf]
      simp
    · rw [hgo, if_neg hf]
      simp [hss, List.length_dropLast]

/-- The spec's food scenario: the initial snake heading right with the
food directly ahead at `(8,8)`. -/
def foodQueueState : Queue.GameState :=
  { snake := createInitialSnake
    food := ⟨8, 8⟩
    direction := ⟨1, 0⟩
    nextDirection := ⟨1, 0⟩
    directionQueue := []
    score := 0
    highScore := 0
    gameRunning := true }

/-- The same food scenario for the single-pending variant. -/
def foodPendingState : Pending.GameState :=
  { snake := createInitialSnake
    food := ⟨8, 8⟩
    direction := ⟨1, 0⟩
    nextDirection := ⟨1, 0⟩
    score := 0
    highScore := 0
    gameRunning := true
    gamePaused := false }

/-- C2 witness: eating the food at `(8,8)` grows the snake from 5 to 6
cells in both variants (oracle food respawns at `(3,2)`). -/
theorem C2_tick_length_preserved_or_grows_witness :
    ({ foodQueueState with
         snake := ⟨8, 8⟩ :: foodQueueState.snake
         score := 10
         food := ⟨3, 2⟩ } : Queue.GameState).snake.length =
      (if (⟨8, 8⟩ : Position) = foodQueueState.food then
        foodQueueState.snake.length + 1
       else foodQueueState.snake.length) ∧
    ({ foodPendingState with
         snake := ⟨8, 8⟩ :: foodPendingState.snake
         score := 10
         food := ⟨3, 2⟩ } : Pending.GameState).snake.length =
      (if (⟨8, 8⟩ : Position) = foodPendingState.food then
        foodPendingState.snake.length + 1
       else foodPendingState.snake.length) :=
  ⟨C2_tick_length_preserved_or_grows.1 grid25x14 rndZero 1 foodQueueState
      { foodQueueState with
          snake := ⟨8, 8⟩ :: foodQueueState.snake
          score := 10
          food := ⟨3, 2⟩ } ⟨8, 8⟩
      (by decide) (by decide) (by decide) (by decide),
   C2_tick_length_preserved_or_grows.2 grid25x14 rndZero 1 foodPendingState
      { foodPendingState with
          snake := ⟨8, 8⟩ :: foodPendingState.snake
          score := 10
          food := ⟨3, 2⟩ } ⟨8, 8⟩
      (by decide) (by decide) (by decide) (by decide)⟩

/-- C4: in either variant, submitting the exact opposite of the comparison
direction (last buffered direction in the queue variant, current resolved
direction in the single-pending variant) leaves the state — in particular
the resolved direction — completely unchanged. -/
theorem C4_opposite_input_silently_rejected :
    (∀ (s : Queue.GameState) (d : Position),
       Queue.comparisonDirection s = d →
       Queue.handleDirectionInput s { x := -d.x, y := -d.y } = s) ∧
    (∀ (s : Pending.GameState) (d : Position),
       s.direction = d →
       Pending.handleDirectionInput s { x := -d.x, y := -d.y } = s) := by
  constructor
  · intro s d hcmp
    simp only [Queue.comparisonDirection] at hcmp
    simp only [Queue.handleDirectionInput, hcmp]
    split
    · rfl
    · simp
  · intro s d hdir
    simp only [Pending.handleDirectionInput, hdir]
    split
    · rfl
    · simp

/-- C4 witness: with the food-scenario states (comparison direction
`(1,0)`), submitting `(-1,0)` changes nothing. -/
theorem C4_opposite_input_silently_rejected_witness :
    Queue.handleDirectionInput foodQueueState { x := -1, y := 0 } =
      foodQueueState ∧
    Pending.handleDirectionInput foodPendingState { x := -1, y := 0 } =
      foodPendingState := by
  constructor
  · have h := C4_opposite_input_silently_rejected.1 foodQueueState
      { x := 1, y := 0 } (by decide)
    exact h
  · have h := C4_opposite_input_silently_rejected.2 foodPendingState
      { x := 1, y := 0 } (by decide)
    exact h

/-- C5: in every reachable state of either variant the score is a
non-negative multiple of 10; a tick whose new head lands on the food adds
exactly 10 to the score, and every other tick leaves it unchanged. -/
theorem C5_score_nonneg_multiple_of_ten :
    (∀ (g : Grid) (s : Queue.GameState), Queue.Reach g s →
       (0 ≤ s.score ∧ s.score % 10 = 0) ∧
       (∀ (rnd : Nat → Nat × Nat) (fuel : Nat) (s' : Queue.GameState)
          (nh : Position),
          Queue.update g rnd fuel s = some s' →
          Queue.tickNewHead g s = some nh →
          s'.score = (if nh = s.food then s.score + 10 else s.score))) ∧
    (∀ (g : Grid) (s : Pending.GameState), Pending.Reach g s →
       (0 ≤ s.score ∧ s.score % 10 = 0) ∧
       (∀ (rnd : Nat → Nat × Nat) (fuel : Nat) (s' : Pending.GameState)
          (nh : Position),
          Pending.update g rnd fuel s = some s' →
          Pending.tickNewHead g s = some nh →
          s'.score = (if nh = s.food then s.score + 10 else s.score))) := by
  constructor
  · intro g s hreach
    obtain ⟨ihsc, ihmod, ihfood⟩ := Queue.reach_inv_queue g s hreach
    refine ⟨⟨ihsc, ihmod⟩, ?_⟩
    intro rnd fuel s' nh hupd hnh
    obtain ⟨head, tail, nh0, hss, hnh0, hcase⟩ :=
      Queue.update_cases_queue g rnd fuel s s' hupd
    obtain ⟨hsn, -, -, -, -, -⟩ := Queue.processQueue_preserves s
    have hnh1 : nh = nh0 := by
      simp only [Queue.tickNewHead] at hnh
      rw [hsn, hss] at hnh
      simp only at hnh
      injection hnh with h1
      rw [← h1, hnh0]
    subst hnh1
    rcases hcase with ⟨hc, hgo⟩ | ⟨hc, hf, f, hsp, hgo⟩ | ⟨hc, hf, hgo⟩
    · have hne : nh ≠ s.food := by
        intro he
        rw [he] at hc
        rw [ihfood] at hc
        exact Bool.false_ne_true hc
      rw [hgo, if_neg hne]
      obtain ⟨-, hsc, -, -, -, -, -⟩ :=
        Queue.gameOverState_spec_queue (Queue.processQueue s)
      obtain ⟨-, -, psc, -, -, -⟩ := Queue.processQueue_preserves s
      rw [hsc, psc]
    · rw [hgo, if_pos hf]
    · rw [hgo, if_neg hf]
  · intro g s hreach
    obtain ⟨ihsc, ihmod, ihfood⟩ := Pending.reach_inv_pending g s hreach
    refine ⟨⟨ihsc, ihmod⟩, ?_⟩
    intro rnd fuel s' nh hupd hnh
    obtain ⟨head, tail, nh0, hss, hnh0, hcase⟩ :=
      Pending.update_cases_pending g rnd fuel s s' hupd
    have hnh1 : nh = nh0 := by
      simp only [Pending.tickNewHead] at hnh
      rw [hss] at hnh
      simp only at hnh
      injection hnh with h1
      rw [← h1, hnh0]
    subst hnh1
    rcases hcase with ⟨hc, hgo⟩ | ⟨hc, hf, f, hsp, hgo⟩ | ⟨hc, hf, hgo⟩
    · have hne : nh ≠ s.food := by
        intro he
        rw [he] at hc
        rw [ihfood] at hc
        exact Bool.false_ne_true hc
      rw [hgo, if_neg hne]
      obtain ⟨-, hsc, -, -, -, -, -, -⟩ :=
        Pending.gameOverState_spec_pending { s with direction := s.nextDirection }
      rw [hsc]
    · rw [hgo, if_pos hf]
    · rw [hgo, if_neg hf]

/-- The construction-time state reached with the all-zero oracle on the
25 × 14 grid (queue variant). -/
def initQueueState : Queue.GameState :=
  { snake := createInitialSnake
    food := ⟨3, 2⟩
    direction := ⟨1, 0⟩
    nextDirection := ⟨1, 0⟩
    directionQueue := []
    score := 0
    highScore := 0
    gameRunning := false }

/-- The construction-time state reached with the all-zero oracle on the
25 × 14 grid (single-pending variant). -/
def initPendingState : Pending.GameState :=
  { snake := createInitialSnake
    food := ⟨3, 2⟩
    direction := ⟨1, 0⟩
    nextDirection := ⟨1, 0⟩
    score := 0
    highScore := 0
    gameRunning := false
    gamePaused := false }

/-- C5 witness: the freshly constructed states have score 0 (a
non-negative multiple of 10) and a tick to the foodless cell `(8,8)`
keeps the score at 0. -/
theorem C5_score_nonneg_multiple_of_ten_witness :
    ((0 ≤ initQueueState.score ∧ initQueueState.score % 10 = 0) ∧
     ({ initQueueState with
          snake := (⟨8, 8⟩ :: initQueueState.snake).dropLast } :
         Queue.GameState).score =
       (if (⟨8, 8⟩ : Position) = initQueueState.food then
         initQueueState.score + 10 else initQueueState.score)) ∧
    ((0 ≤ initPendingState.score ∧ initPendingState.score % 10 = 0) ∧
     ({ initPendingState with
          snake := (⟨8, 8⟩ :: initPendingState.snake).dropLast } :
         Pending.GameState).score =
       (if (⟨8, 8⟩ : Position) = initPendingState.food then
         initPendingState.score + 10 else initPendingState.score)) := by
  have hq := C5_score_nonneg_multiple_of_ten.1 grid25x14 initQueueState
    (Queue.Reach.init rndZero 1 0 initQueueState (by decide))
  have hp := C5_score_nonneg_multiple_of_ten.2 grid25x14 initPendingState
    (Pending.Reach.init rndZero 1 0 initPendingState (by decide))
  exact ⟨⟨hq.1, hq.2 rndZero 1 _ ⟨8, 8⟩ (by decide) (by decide)⟩,
         ⟨hp.1, hp.2 rndZero 1 _ ⟨8, 8⟩ (by decide) (by decide)⟩⟩

/-- C8: on entering GameOver in either variant, the high score is raised
to the final score exactly when it was beaten (and exactly then a store
write of that value happens); the delayed reset restores the
construction-time shape — canonical 5-cell snake starting at `(7,8)`,
direction `(1,0)`, score 0, cleared pending input, fresh food off the
snake — while preserving the (possibly just-raised) high score. -/
theorem C8_gameover_highscore_then_reset :
    (∀ s : Queue.GameState,
       (Queue.gameOverState s).highScore =
         (if s.score > s.highScore then s.score else s.highScore) ∧
       Queue.gameOverPersisted s =
         (if s.score > s.highScore then some s.score else none) ∧
       (∀ (g : Grid) (rnd : Nat → Nat × Nat) (fuel : Nat)
          (t : Queue.GameState),
          Queue.gameOverReset g rnd fuel (Queue.gameOverState s) = some t →
          t.snake = createInitialSnake ∧
          t.snake = [⟨7, 8⟩, ⟨6, 8⟩, ⟨5, 8⟩, ⟨4, 8⟩, ⟨3, 8⟩] ∧
          t.direction = { x := 1, y := 0 } ∧
          t.nextDirection = { x := 1, y := 0 } ∧
          t.directionQueue = [] ∧
          t.score = 0 ∧
          t.highScore = (Queue.gameOverState s).highScore ∧
          t.gameRunning = false ∧
          checkCollision t.snake t.food = false)) ∧
    (∀ s : Pending.GameState,
       (Pending.gameOverState s).highScore =
         (if s.score > s.highScore then s.score else s.highScore) ∧
       Pending.gameOverPersisted s =
         (if s.score > s.highScore then some s.score else none) ∧
       (∀ (g : Grid) (rnd : Nat → Nat × Nat) (fuel : Nat)
          (t : Pending.GameState),
          Pending.gameOverReset g rnd fuel (Pending.gameOverState s) = some t →
          t.snake = createInitialSnake ∧
          t.snake = [⟨7, 8⟩, ⟨6, 8⟩, ⟨5, 8⟩, ⟨4, 8⟩, ⟨3, 8⟩] ∧
          t.direction = { x := 1, y := 0 } ∧
          t.nextDirection = { x := 1, y := 0 } ∧
          t.score = 0 ∧
          t.highScore = (Pending.gameOverState s).highScore ∧
          t.gameRunning = false ∧
          checkCollision t.snake t.food = false)) := by
  constructor
  · intro s
    refine ⟨(Queue.gameOverState_spec_queue s).2.2.2.2.2.2, rfl, ?_⟩
    intro g rnd fuel t hreset
    simp only [Queue.gameOverReset] at hreset
    rcases hsp : spawnFood g createInitialSnake rnd fuel with _ | f
    · rw [hsp] at hreset; exact absurd hreset (by simp)
    · rw [hsp] at hreset
      injection hreset with h1
      refine ⟨by rw [← h1], by rw [← h1]; rfl, by rw [← h1], by rw [← h1],
        by rw [← h1], by rw [← h1], by rw [← h1], ?_, ?_⟩
      · rw [← h1]
        exact (Queue.gameOverState_spec_queue s).1
      · rw [← h1]
        exact spawnFood_not_on_snake g createInitialSnake rnd fuel 0 f hsp
  · intro s
    refine ⟨(Pending.gameOverState_spec_pending s).2.2.2.2.2.2.2, rfl, ?_⟩
    intro g rnd fuel t hreset
    simp only [Pending.gameOverReset] at hreset
    rcases hsp : spawnFood g createInitialSnake rnd fuel with _ | f
    · rw [hsp] at hreset; exact absurd hreset (by simp)
    · rw [hsp] at hreset
      injection hreset with h1
      refine ⟨by rw [← h1], by rw [← h1]; rfl, by rw [← h1], by rw [← h1],
        by rw [← h1], by rw [← h1], ?_, ?_⟩
      · rw [← h1]
        exact (Pending.gameOverState_spec_pending s).1
      · rw [← h1]
        exact spawnFood_not_on_snake g createInitialSnake rnd fuel 0 f hsp

/-- A just-ended game with score 30 beating high score 10. -/
def endedQueueState : Queue.GameState :=
  { snake := [⟨5, 5⟩, ⟨4, 5⟩, ⟨3, 5⟩, ⟨2, 5⟩, ⟨1, 5⟩]
    food := ⟨9, 9⟩
    direction := ⟨-1, 0⟩
    nextDirection := ⟨-1, 0⟩
    directionQueue := [dirUp]
    score := 30
    highScore := 10
    gameRunning := true }

/-- C8 witness: for the concrete ended game, the high score becomes 30,
30 is persisted, and the reset (all-zero oracle) rebuilds the canonical
state with food `(3,2)` and high score 30 kept. -/
theorem C8_gameover_highscore_then_reset_witness :
    (Queue.gameOverState endedQueueState).highScore =
      (if endedQueueState.score > endedQueueState.highScore then
        endedQueueState.score else endedQueueState.highScore) ∧
    Queue.gameOverPersisted endedQueueState =
      (if endedQueueState.score > endedQueueState.highScore then
        some endedQueueState.score else none) ∧
    (let t : Queue.GameState :=
      { snake := createInitialSnake
        food := ⟨3, 2⟩
        direction := ⟨1, 0⟩
        nextDirection := ⟨1, 0⟩
        directionQueue := []
        score := 0
        highScore := 30
        gameRunning := false }
     t.snake = createInitialSnake ∧
     t.snake = [⟨7, 8⟩, ⟨6, 8⟩, ⟨5, 8⟩, ⟨4, 8⟩, ⟨3, 8⟩] ∧
     t.direction = { x := 1, y := 0 } ∧
     t.nextDirection = { x := 1, y := 0 } ∧
     t.directionQueue = [] ∧
     t.score = 0 ∧
     t.highScore = (Queue.gameOverState endedQueueState).highScore ∧
     t.gameRunning = false ∧
     checkCollision t.snake t.food = false) :=
  ⟨(C8_gameover_highscore_then_reset.1 endedQueueState).1,
   (C8_gameover_highscore_then_reset.1 endedQueueState).2.1,
   (C8_gameover_highscore_then_reset.1 endedQueueState).2.2
     grid25x14 rndZero 1 _ (by decide)⟩

/-- C9: in the pause-capable single-pending variant, toggling while
running and unpaused sets the paused flag and changes nothing else (in
particular snake, food and score); and a timer firing while paused
returns the state untouched and reports no redraw. -/
theorem C9_pause_freezes_state :
    (∀ s : Pending.GameState,
       s.gameRunning = true → s.gamePaused = false →
       (Pending.toggleGame s).gamePaused = true ∧
       (Pending.toggleGame s).snake = s.snake ∧
       (Pending.toggleGame s).food = s.food ∧
       (Pending.toggleGame s).score = s.score ∧
       Pending.toggleGame s = { s with gamePaused := true }) ∧
    (∀ (g : Grid) (rnd : Nat → Nat × Nat) (fuel : Nat)
       (s : Pending.GameState),
       s.gamePaused = true →
       Pending.timerFired g rnd fuel s = some (s, false)) := by
  constructor
  · intro s hrun hp
    have h : Pending.toggleGame s = { s with gamePaused := true } := by
      simp only [Pending.toggleGame, hrun, hp]
      simp
    rw [h]
    exact ⟨rfl, rfl, rfl, rfl, rfl⟩
  · intro g rnd fuel s hp
    simp only [Pending.timerFired, hp]
    simp

/-- A paused mid-game state (single-pending variant). -/
def pausedPendingState : Pending.GameState :=
  { snake := [⟨9, 9⟩, ⟨8, 9⟩, ⟨7, 9⟩, ⟨6, 9⟩, ⟨5, 9⟩, ⟨4, 9⟩]
    food := ⟨12, 3⟩
    direction := ⟨1, 0⟩
    nextDirection := ⟨1, 0⟩
    score := 10
    highScore := 50
    gameRunning := true
    gamePaused := true }

/-- C9 witness: toggling the running unpaused food scenario pauses it
without touching snake/food/score, and a timer firing on a paused state
does nothing and draws nothing. -/
theorem C9_pause_freezes_state_witness :
    ((Pending.toggleGame foodPendingState).gamePaused = true ∧
     (Pending.toggleGame foodPendingState).snake = foodPendingState.snake ∧
     (Pending.toggleGame foodPendingState).food = foodPendingState.food ∧
     (Pending.toggleGame foodPendingState).score = foodPendingState.score ∧
     Pending.toggleGame foodPendingState =
       { foodPendingState with gamePaused := true }) ∧
    Pending.timerFired grid25x14 rndZero 1 pausedPendingState =
      some (pausedPendingState, false) :=
  ⟨C9_pause_freezes_state.1 foodPendingState (by decide) (by decide),
   C9_pause_freezes_state.2 grid25x14 rndZero 1 pausedPendingState (by decide)⟩

/-- A running game in construction-time shape (queue variant), used for
input-buffering scenarios. -/
def runningQueueStart : Queue.GameState :=
  { snake := createInitialSnake
    food := ⟨3, 2⟩
    direction := ⟨1, 0⟩
    nextDirection := ⟨1, 0⟩
    directionQueue := []
    score := 0
    highScore := 0
    gameRunning := true }

/-- Four rapid submissions, each valid and non-reversing with respect to
the comparison direction at its submission time. -/
def fourInputs : List Position := [dirRight, dirUp, dirLeft, dirDown]

/-- The state after submitting `fourInputs` to `runningQueueStart`. -/
def fourQueuedState : Queue.GameState :=
  List.foldl Queue.handleDirectionInput runningQueueStart fourInputs

/-- C7 counterexample: after four submissions the queue holds all four
directions; a 5th submission (`dirRight`, which is valid and non-reversing
against the comparison direction `dirDown`) is indeed dropped, but by the
*duplicate* filter — `inputFate` is `rejected`, not `droppedQueueFull` —
so the claim's capacity-based mechanism (and its premise of five distinct
directions, when only four exist) is contradicted at this concrete run. -/
theorem C7_fifth_input_counterexample :
    fourQueuedState.directionQueue.length = 4 ∧
    ¬ oppositeDir (Queue.comparisonDirection fourQueuedState) dirRight ∧
    Queue.inputFate fourQueuedState dirRight = Queue.InputFate.rejected ∧
    Queue.inputFate fourQueuedState dirRight ≠
      Queue.InputFate.droppedQueueFull := by
  decide

/-- C7 (amended): submitting five valid non-reversing directions in rapid
succession before any tick leaves exactly 4 buffered and the 5th is
silently dropped — necessarily by the duplicate filter, since only four
directions exist and a 4-long queue contains all of them. -/
theorem C7_five_inputs_four_buffered :
    fourQueuedState.directionQueue = [dirRight, dirUp, dirLeft, dirDown] ∧
    (∀ d ∈ [dirUp, dirDown, dirLeft, dirRight],
       Queue.handleDirectionInput fourQueuedState d = fourQueuedState ∧
       Queue.inputFate fourQueuedState d = Queue.InputFate.rejected) := by
  decide

/-- The spec's collision scenario: snake `[(5,5),(4,5),(3,5),(2,5),(1,5)]`
heading left, so the next head `(4,5)` hits the body. -/
def collisionQueueState : Queue.GameState :=
  { snake := [⟨5, 5⟩, ⟨4, 5⟩, ⟨3, 5⟩, ⟨2, 5⟩, ⟨1, 5⟩]
    food := ⟨0, 0⟩
    direction := ⟨-1, 0⟩
    nextDirection := ⟨-1, 0⟩
    directionQueue := []
    score := 0
    highScore := 0
    gameRunning := true }

/-- The same collision scenario for the single-pending variant. -/
def collisionPendingState : Pending.GameState :=
  { snake := [⟨5, 5⟩, ⟨4, 5⟩, ⟨3, 5⟩, ⟨2, 5⟩, ⟨1, 5⟩]
    food := ⟨0, 0⟩
    direction := ⟨-1, 0⟩
    nextDirection := ⟨-1, 0⟩
    score := 0
    highScore := 0
    gameRunning := true
    gamePaused := false }

/-- C1 witness: on the spec's scenario both variants transition to
GameOver, and the new head `(4,5)` does hit the pre-move body. -/
theorem C1_tick_gameover_iff_hit_premove_body_witness :
    ((Queue.gameOverState (Queue.processQueue collisionQueueState)).gameRunning
        = false ↔
      checkCollision collisionQueueState.snake ⟨4, 5⟩ = true) ∧
    ((Pending.gameOverState
          { collisionPendingState with
              direction := collisionPendingState.nextDirection }).gameRunning
        = false ↔
      checkCollision collisionPendingState.snake ⟨4, 5⟩ = true) :=
  ⟨C1_tick_gameover_iff_hit_premove_body.1 grid25x14 rndZero 1
      collisionQueueState
      (Queue.gameOverState (Queue.processQueue collisionQueueState)) ⟨4, 5⟩
      (by decide) (by decide) (by decide),
   C1_tick_gameover_iff_hit_premove_body.2 grid25x14 rndZero 1
      collisionPendingState
      (Pending.gameOverState
        { collisionPendingState with
            direction := collisionPendingState.nextDirection }) ⟨4, 5⟩
      (by decide) (by decide) (by decide)⟩

/-- C3: for every in-bounds head, every one of the four unit directions and
positive grid dimensions, the new head computed by a tick is in bounds and
equals the component-wise sum of head and direction reduced modulo the grid
dimensions. -/
theorem C3_new_head_toroidal_wrap :
    ∀ (g : Grid) (head d : Position),
      0 < g.gridWidth → 0 < g.gridHeight →
      0 ≤ head.x → head.x < g.gridWidth →
      0 ≤ head.y → head.y < g.gridHeight →
      d ∈ [dirUp, dirDown, dirLeft, dirRight] →
      0 ≤ (newHeadPos g head d).x ∧ (newHeadPos g head d).x < g.gridWidth ∧
      0 ≤ (newHeadPos g head d).y ∧ (newHeadPos g head d).y < g.gridHeight ∧
      (newHeadPos g head d).x = (head.x + d.x) % g.gridWidth ∧
      (newHeadPos g head d).y = (head.y + d.y) % g.gridHeight := by
  intro g head d hw hh hx0 hxw hy0 hyh hd
  have key : ∀ a w : Int, 0 < w → -1 ≤ a →
      Int.tmod (a + w) w = a % w ∧ 0 ≤ a % w ∧ a % w < w := by
    intro a w hw1 ha
    refine ⟨?_, Int.emod_nonneg a (by omega), Int.emod_lt_of_pos a hw1⟩
    rw [Int.tmod_eq_emod (by omega) (by omega),
      show a + w = a + w * 1 by ring, Int.add_mul_emod_self_left]
  have hdx : -1 ≤ d.x ∧ -1 ≤ d.y := by
    fin_cases hd <;> simp [dirUp, dirDown, dirLeft, dirRight]
  obtain ⟨ex, lx, ux⟩ := key (head.x + d.x) g.gridWidth hw (by omega)
  obtain ⟨ey, ly, uy⟩ := key (head.y + d.y) g.gridHeight hh (by omega)
  simp only [newHeadPos]
  exact ⟨by rw [ex]; exact lx, by rw [ex]; exact ux,
         by rw [ey]; exact ly, by rw [ey]; exact uy, ex, ey⟩

/-- C3 witness: head (0, 13) moving up on the 25 × 14 grid wraps. -/
theorem C3_new_head_toroidal_wrap_witness :
    0 ≤ (newHeadPos grid25x14 { x := 0, y := 13 } dirUp).x ∧
    (newHeadPos grid25x14 { x := 0, y := 13 } dirUp).x < grid25x14.gridWidth ∧
    0 ≤ (newHeadPos grid25x14 { x := 0, y := 13 } dirUp).y ∧
    (newHeadPos grid25x14 { x := 0, y := 13 } dirUp).y < grid25x14.gridHeight ∧
    (newHeadPos grid25x14 { x := 0, y := 13 } dirUp).x =
      (({ x := 0, y := 13 } : Position).x + dirUp.x) % grid25x14.gridWidth ∧
    (newHeadPos grid25x14 { x := 0, y := 13 } dirUp).y =
      (({ x := 0, y := 13 } : Position).y + dirUp.y) % grid25x14.gridHeight :=
  C3_new_head_toroidal_wrap grid25x14 { x := 0, y := 13 } dirUp
    (by decide) (by decide) (by decide) (by decide) (by decide) (by decide)
    (by decide)

/-- C6: whenever `spawnFood` returns (in either variant — the routine is
identical in both), the food is not on the snake and lies in the inset
margin region of `floor(15%)` of each grid dimension from each edge. -/
theorem C6_spawnFood_off_snake_in_margin :
    ∀ (g : Grid) (snake : List Position) (rnd : Nat → Nat × Nat)
      (fuel : Nat) (f : Position),
      0 < g.gridWidth → 0 < g.gridHeight →
      spawnFood g snake rnd fuel = some f →
      checkCollision snake f = false ∧
      g.gridWidth * 15 / 100 ≤ f.x ∧
      f.x < g.gridWidth - g.gridWidth * 15 / 100 ∧
      g.gridHeight * 15 / 100 ≤ f.y ∧
      f.y < g.gridHeight - g.gridHeight * 15 / 100 := by
  intro g snake rnd fuel f hw hh h
  exact spawnFood_sound g snake rnd fuel f hw hh h

/-- C6 witness: with the all-zero oracle on the 25 × 14 grid, `spawnFood`
places the food at (3, 2), off the initial snake and inside the margins. -/
theorem C6_spawnFood_off_snake_in_margin_witness :
    checkCollision createInitialSnake { x := 3, y := 2 } = false ∧
    grid25x14.gridWidth * 15 / 100 ≤ (3 : Int) ∧
    (3 : Int) < grid25x14.gridWidth - grid25x14.gridWidth * 15 / 100 ∧
    grid25x14.gridHeight * 15 / 100 ≤ (2 : Int) ∧
    (2 : Int) < grid25x14.gridHeight - grid25x14.gridHeight * 15 / 100 :=
  C6_spawnFood_off_snake_in_margin grid25x14 createInitialSnake rndZero 1
    { x := 3, y := 2 } (by decide) (by decide) (by decide)

/-- C10: consecutive ticks never apply opposite directions.  Queue
variant: the direction a tick applies is the re-validated
`processQueue` output, never opposite to the previously applied
direction (which ticks store in `direction` and key events never touch).
Single-pending variant: any number of key events between ticks leaves a
pending direction that is not opposite to the previously applied one,
and a tick applies exactly the pending direction. -/
theorem C10_consecutive_ticks_never_reverse :
    (∀ s : Queue.GameState, s.direction ≠ { x := 0, y := 0 } →
       ¬ oppositeDir s.direction (Queue.processQueue s).direction) ∧
    (∀ (g : Grid) (rnd : Nat → Nat × Nat) (fuel : Nat)
       (s s' : Queue.GameState),
       Queue.update g rnd fuel s = some s' →
       s'.direction = (Queue.processQueue s).direction) ∧
    (∀ (s : Queue.GameState) (nd : Position),
       (Queue.handleDirectionInput s nd).direction = s.direction) ∧
    (∀ (s : Pending.GameState) (ds : List Position),
       s.nextDirection = s.direction →
       s.direction ≠ { x := 0, y := 0 } →
       ¬ oppositeDir s.direction
         ((List.foldl Pending.handleDirectionInput s ds).nextDirection)) ∧
    (∀ (g : Grid) (rnd : Nat → Nat × Nat) (fuel : Nat)
       (s s' : Pending.GameState),
       Pending.update g rnd fuel s = some s' →
       s'.direction = s.nextDirection ∧
       s'.nextDirection = s.nextDirection) := by
  refine ⟨?_, ?_, ?_, ?_, ?_⟩
  · intro s hne hopp
    have hself : ¬ oppositeDir s.direction s.direction := by
      intro he
      exact hne ((oppositeDir_self_iff _).mp he)
    simp only [Queue.processQueue] at hopp
    rcases hq : s.directionQueue with _ | ⟨q, rest⟩
    · rw [hq] at hopp
      exact hself hopp
    · rw [hq] at hopp
      simp only at hopp
      by_cases hcond :
          (s.direction.x + q.x != 0 || s.direction.y + q.y != 0) = true
      · rw [if_pos hcond] at hopp
        obtain ⟨h1, h2⟩ := hopp
        simp only at h1 h2
        simp [h1, h2] at hcond
      · rw [if_neg hcond] at hopp
        exact hself hopp
  · intro g rnd fuel s s' hupd
    obtain ⟨head, tail, nh, hss, hnh, hcase⟩ :=
      Queue.update_cases_queue g rnd fuel s s' hupd
    rcases hcase with ⟨-, hgo⟩ | ⟨-, -, f, -, hgo⟩ | ⟨-, -, hgo⟩
    · rw [hgo]
      exact (Queue.gameOverState_spec_queue _).2.2.2.2.1
    · rw [hgo]
    · rw [hgo]
  · intro s nd
    exact (Queue.handleDirectionInput_preserves_queue s nd).2.2.2.2.1
  · intro s ds heq hne hopp
    obtain ⟨hdir, hnext⟩ := Pending.foldl_inputs_spec ds s
    rcases hnext with he | hn
    · rw [he, heq] at hopp
      exact hne ((oppositeDir_self_iff _).mp hopp)
    · exact hn hopp
  · intro g rnd fuel s s' hupd
    obtain ⟨head, tail, nh, hss, hnh, hcase⟩ :=
      Pending.update_cases_pending g rnd fuel s s' hupd
    rcases hcase with ⟨-, hgo⟩ | ⟨-, -, f, -, hgo⟩ | ⟨-, -, hgo⟩
    · rw [hgo]
      exact ⟨(Pending.gameOverState_spec_pending _).2.2.2.2.1,
             (Pending.gameOverState_spec_pending _).2.2.2.2.2.1⟩
    · rw [hgo]
      exact ⟨rfl, rfl⟩
    · rw [hgo]
      exact ⟨rfl, rfl⟩

/-- C10 witness: concrete instances of every clause — the re-validated
direction after a tick of `runningQueueStart`, the direction equalities
on the concrete food-eating ticks, and two rapid inputs on the pending
variant. -/
theorem C10_consecutive_ticks_never_reverse_witness :
    (¬ oppositeDir runningQueueStart.direction
        (Queue.processQueue runningQueueStart).direction) ∧
    (({ foodQueueState with
          snake := ⟨8, 8⟩ :: foodQueueState.snake
          score := 10
          food := ⟨3, 2⟩ } : Queue.GameState).direction =
      (Queue.processQueue foodQueueState).direction) ∧
    (¬ oppositeDir foodPendingState.direction
        ((List.foldl Pending.handleDirectionInput foodPendingState
            [dirUp, dirLeft]).nextDirection)) ∧
    (({ foodPendingState with
          snake := ⟨8, 8⟩ :: foodPendingState.snake
          score := 10
          food := ⟨3, 2⟩ } : Pending.GameState).direction =
        foodPendingState.nextDirection ∧
     ({ foodPendingState with
          snake := ⟨8, 8⟩ :: foodPendingState.snake
          score := 10
          food := ⟨3, 2⟩ } : Pending.GameState).nextDirection =
        foodPendingState.nextDirection) :=
  ⟨C10_consecutive_ticks_never_reverse.1 runningQueueStart (by decide),
   C10_consecutive_ticks_never_reverse.2.1 grid25x14 rndZero 1 foodQueueState
     _ (by decide),
   C10_consecutive_ticks_never_reverse.2.2.2.1 foodPendingState
     [dirUp, dirLeft] (by decide) (by decide),
   C10_consecutive_ticks_never_reverse.2.2.2.2 grid25x14 rndZero 1
     foodPendingState _ (by decide)⟩
